import Mathlib

/-!
Verification of the Sutera identity codec and signed-message envelope
(`sutera-lib`, modules `signature/identity.rs` and `signature/message.rs`).

Rust strings are embedded as lists of UTF-8 bytes (`List Nat`), so that
byte-level behaviour (`str::len`, `as_bytes().chunks(2)`,
`std::str::from_utf8`) is modelled faithfully.  A Rust function that can
panic is embedded with result type `Option _`, where `none` marks a panic.
-/

namespace Sutera

/-- UTF-8 bytes of an ASCII string literal (all characters below 0x80). -/
def asciiBytes (s : String) : List Nat :=
  s.data.map Char.toNat

/-- Errors of `TryFrom<String> for SuteraIdentity` (identity.rs, lines 8-16). -/
inductive SuteraIdentityStringParseError where
  | InvalidFormat
  | VersionMismatch (found : List Nat)
  | UnsupportedKind (found : List Nat)
deriving DecidableEq

/-- The kind enumeration (identity.rs, lines 18-22); one variant, token "user". -/
inductive SuteraIdentityKind where
  | User
deriving DecidableEq

/-- strum `AsRefStr`: the canonical token of a kind. -/
def SuteraIdentityKind.asRef : SuteraIdentityKind → List Nat
  | .User => asciiBytes "user"

/-- strum `EnumString` (`from_str`): case-sensitive exact lookup of a kind token. -/
def kindFromStr (s : List Nat) : Option SuteraIdentityKind :=
  if s = asciiBytes "user" then some .User else none

/-- The identity record (identity.rs, lines 26-45).  `pub_signature` embeds the
`ed25519::VerifyingKey` wrapper around a `[u8; 32]` as its list of bytes. -/
structure SuteraIdentity where
  kind : SuteraIdentityKind
  display_name : Option (List Nat)
  pub_signature : List Nat
deriving DecidableEq

/-- The literal version token `sutera-identity-v1`. -/
def versionToken : List Nat := asciiBytes "sutera-identity-v1"

/-- Lower-case hexadecimal digit character for a value below 16 (`{:02x}`). -/
def hexChar (n : Nat) : Nat :=
  if n < 10 then 48 + n else 87 + n

/-- The two lower-case hex characters of one byte, zero padded (`format "{:02x}"`). -/
def byteHex (b : Nat) : List Nat :=
  [hexChar (b / 16), hexChar (b % 16)]

/-- Hex encoding of a byte list: the fold of `{:02x}` formatting over the bytes
(identity.rs, lines 67-72). -/
def hexEncode : List Nat → List Nat
  | [] => []
  | b :: rest => byteHex b ++ hexEncode rest

/-- `From<SuteraIdentity> for String` (identity.rs, lines 59-75): canonical form
`kind[@display_name].sutera-identity-v1.hex(pub_signature)`. -/
def identityToString (x : SuteraIdentity) : List Nat :=
  (match x.display_name with
    | some dn => x.kind.asRef ++ [64] ++ dn
    | none => x.kind.asRef)
  ++ [46] ++ versionToken ++ [46] ++ hexEncode x.pub_signature

/-- `char::to_digit(16)`: value of one hexadecimal digit character, if any. -/
def hexDigitVal (c : Nat) : Option Nat :=
  if 48 ≤ c ∧ c ≤ 57 then some (c - 48)
  else if 97 ≤ c ∧ c ≤ 102 then some (c - 87)
  else if 65 ≤ c ∧ c ≤ 70 then some (c - 55)
  else none

/-- Digit loop of `u8::from_str_radix(_, 16)` for a non-negative parse: fold
`acc * 16 + digit` with the u8 overflow check. -/
def radixAccPos : List Nat → Nat → Option Nat
  | [], acc => some acc
  | c :: rest, acc =>
    match hexDigitVal c with
    | none => none
    | some d => if acc * 16 + d > 255 then none else radixAccPos rest (acc * 16 + d)

/-- `u8::from_str_radix(s, 16)` on a list of characters: an optional leading
plus sign (43), then at least one digit.  The minus-sign arm of the source is
guarded by `is_signed_ty`, which is false for the unsigned `u8`, so a leading
minus sign (45) falls through to the digit loop and fails there, 45 not being
a digit. -/
def u8FromStrRadix16 (s : List Nat) : Option Nat :=
  match s with
  | [] => none
  | c :: rest =>
    if c = 43 then (if rest = [] then none else radixAccPos rest 0)
    else radixAccPos (c :: rest) 0

/-- One chunk of the hex decode loop (identity.rs, lines 115-120):
`u8::from_str_radix(std::str::from_utf8(chunk).unwrap(), 16)`.  Outer `none`
is the panic of `.unwrap()` when the 1- or 2-byte chunk is not valid UTF-8;
otherwise the inner option is the `from_str_radix` result on the chunk's
characters (a lone 2-byte character is never a digit or sign, hence fails). -/
def decodeChunk : List Nat → Option (Option Nat)
  | [a, b] =>
    if a < 128 ∧ b < 128 then some (u8FromStrRadix16 [a, b])
    else if 194 ≤ a ∧ a ≤ 223 ∧ 128 ≤ b ∧ b ≤ 191 then some none
    else none
  | [a] => if a < 128 then some (u8FromStrRadix16 [a]) else none
  | _ => some none

/-- `slice::chunks(2)`: consecutive chunks of two, last one possibly shorter. -/
def chunks2 : List Nat → List (List Nat)
  | [] => []
  | [a] => [[a]]
  | a :: b :: rest => [a, b] :: chunks2 rest

/-- The `map ... collect::<Result<Vec<u8>, _>>` loop over the chunks: lazy left
to right, stopping at the first chunk whose radix parse fails (`some none`)
and propagating a panic (`none`) of an earlier chunk. -/
def decodeHex : List (List Nat) → Option (Option (List Nat))
  | [] => some (some [])
  | c :: rest =>
    match decodeChunk c with
    | none => none
    | some none => some none
    | some (some b) =>
      match decodeHex rest with
      | none => none
      | some none => some none
      | some (some bs) => some (some (b :: bs))

/-- `str::find('@')` followed by the two slices `[..i]` and `[i + 1..]`:
splits at the first 64 byte (the at sign), when present. -/
def splitAtFirstAt : List Nat → Option (List Nat × List Nat)
  | [] => none
  | c :: rest =>
    if c = 64 then some ([], rest)
    else
      match splitAtFirstAt rest with
      | some (a, b) => some (c :: a, b)
      | none => none

/-- Kind-and-name block handling (identity.rs, lines 100-113): split segment 1
at the first at sign when present, look the kind token up, and report
`UnsupportedKind` carrying that token on failure. -/
def kindAndName (kindSeg : List Nat) :
    Except SuteraIdentityStringParseError (SuteraIdentityKind × Option (List Nat)) :=
  match splitAtFirstAt kindSeg with
  | some (before, after) =>
    match kindFromStr before with
    | some k => .ok (k, some after)
    | none => .error (.UnsupportedKind before)
  | none =>
    match kindFromStr kindSeg with
    | some k => .ok (k, none)
    | none => .error (.UnsupportedKind kindSeg)

/-- `TryFrom<String> for SuteraIdentity` (identity.rs, lines 77-128).  `none`
marks a panic of the hex-decoding `.unwrap()`; `some` carries the Rust
`Result`. -/
def identityFromString (s : List Nat) :
    Option (Except SuteraIdentityStringParseError SuteraIdentity) :=
  match s.splitOn 46 with
  | [kindSeg, version, pubKey] =>
    if kindSeg = [] then some (.error .InvalidFormat)
    else if version ≠ versionToken then some (.error (.VersionMismatch version))
    else if pubKey.length ≠ 64 then some (.error .InvalidFormat)
    else
      match kindAndName kindSeg with
      | .error e => some (.error e)
      | .ok (k, dn) =>
        match decodeHex (chunks2 pubKey) with
        | none => none
        | some none => some (.error .InvalidFormat)
        | some (some bytes) => some (.ok ⟨k, dn, bytes⟩)
  | _ => some (.error .InvalidFormat)

instance {ε α : Type} [DecidableEq ε] [DecidableEq α] : DecidableEq (Except ε α) := fun x y =>
  match x, y with
  | .error a, .error b =>
    if h : a = b then .isTrue (by rw [h]) else .isFalse (fun hc => h (Except.error.inj hc))
  | .ok a, .ok b =>
    if h : a = b then .isTrue (by rw [h]) else .isFalse (fun hc => h (Except.ok.inj hc))
  | .error _, .ok _ => .isFalse (fun hc => Except.noConfusion hc)
  | .ok _, .error _ => .isFalse (fun hc => Except.noConfusion hc)

/-- Alphanumeric byte: 0-9, a-z or A-Z. -/
def isAlnum (c : Nat) : Prop :=
  (48 ≤ c ∧ c ≤ 57) ∨ (97 ≤ c ∧ c ≤ 122) ∨ (65 ≤ c ∧ c ≤ 90)

instance (c : Nat) : Decidable (isAlnum c) := by
  unfold isAlnum
  infer_instance

/-- Display-name half of the documented invariant: absent, or non-empty and
alphanumeric-only. -/
def displayNameOk : Option (List Nat) → Prop
  | none => True
  | some d => d ≠ [] ∧ ∀ c ∈ d, isAlnum c

instance (o : Option (List Nat)) : Decidable (displayNameOk o) := by
  cases o <;> unfold displayNameOk <;> infer_instance

/-- A valid identity value: 32 public-key bytes, each a byte, and a display
name that is absent or non-empty and alphanumeric-only. -/
def ValidIdentity (x : SuteraIdentity) : Prop :=
  x.pub_signature.length = 32 ∧ (∀ b ∈ x.pub_signature, b < 256) ∧
  displayNameOk x.display_name

instance (x : SuteraIdentity) : Decidable (ValidIdentity x) := by
  unfold ValidIdentity
  infer_instance

/-- The external asymmetric-signature capability (the `ring_compat`
`ed25519` types), modelled as an injected interface per the design notes:
an opaque signing-key type, a signature type, and the operations the
envelope code calls.  Verifying keys are their 32 bytes (the codec hex
encodes exactly those), so `SuteraIdentity.pub_signature` compares directly. -/
structure SignatureScheme (SK Sig : Type) where
  verifying_key : SK → List Nat
  sign : SK → List Nat → Sig
  check : List Nat → List Nat → Sig → Bool
  sigToString : Sig → List Nat
  sigFromString : List Nat → Option Sig

/-- Soundness law of the primitive: a signature produced by a signing key
verifies under that key's verifying key. -/
def SchemeCorrect {SK Sig : Type} (S : SignatureScheme SK Sig) : Prop :=
  ∀ sk m, S.check (S.verifying_key sk) m (S.sign sk m) = true

/-- Binding law of the primitive (cryptographic unforgeability, assumed of the
external capability): a signature over one message never verifies over a
different message under the matching verifying key. -/
def SchemeBinding {SK Sig : Type} (S : SignatureScheme SK Sig) : Prop :=
  ∀ sk m m2, m2 ≠ m → S.check (S.verifying_key sk) m2 (S.sign sk m) = false

/-- Round-trip law of the primitive's textual signature encoding. -/
def SchemeSigRoundTrip {SK Sig : Type} (S : SignatureScheme SK Sig) : Prop :=
  ∀ sig, S.sigFromString (S.sigToString sig) = some sig

/-- The signed-message envelope (message.rs, lines 10-15). -/
structure SuteraSignedMessage (Sig : Type) where
  author : SuteraIdentity
  message : List Nat
  signature : Sig
deriving DecidableEq

/-- The signing error (message.rs, lines 19-23). -/
inductive SuteraMessageSigningError where
  | SigningKeyMismatch
deriving DecidableEq

/-- `SuteraSignedMessage::new` (message.rs, lines 39-56): derive the verifying
key, compare against the author's, fail with `SigningKeyMismatch` on mismatch,
otherwise sign the message bytes and assemble the envelope. -/
def SuteraSignedMessage.new {SK Sig : Type} (S : SignatureScheme SK Sig)
    (author : SuteraIdentity) (message : List Nat) (signer : SK) :
    Except SuteraMessageSigningError (SuteraSignedMessage Sig) :=
  if S.verifying_key signer ≠ author.pub_signature then .error .SigningKeyMismatch
  else .ok ⟨author, message, S.sign signer message⟩

/-- `SuteraSignedMessage::verify` (message.rs, lines 72-77): check the stored
signature over the message bytes under the author's public key. -/
def SuteraSignedMessage.runVerify {SK Sig : Type} (S : SignatureScheme SK Sig)
    (m : SuteraSignedMessage Sig) : Bool :=
  S.check m.author.pub_signature m.message m.signature

/-- The wire payload (message.rs, lines 112-117): three text fields. -/
structure SuteraSignedMessagePayload where
  author : List Nat
  message : List Nat
  signature : List Nat
deriving DecidableEq

/-- Deserialization failure (serde custom error): wraps the identity codec
error or the signature text-decode error. -/
inductive SuteraMessageDeError where
  | identityError (e : SuteraIdentityStringParseError)
  | signatureError
deriving DecidableEq

/-- `Serialize for SuteraSignedMessage` (message.rs, lines 80-92): the payload
holds the codec string of the author, the message unchanged, and the
signature's textual encoding. -/
def serializeMsg {SK Sig : Type} (S : SignatureScheme SK Sig)
    (m : SuteraSignedMessage Sig) : SuteraSignedMessagePayload :=
  ⟨identityToString m.author, m.message, S.sigToString m.signature⟩

/-- `Deserialize for SuteraSignedMessage` (message.rs, lines 94-110): parse the
author via the identity codec, the signature via the primitive's textual
decoder, keep the message unchanged; no verification.  Outer `none` propagates
a panic of the identity codec. -/
def deserializeMsg {SK Sig : Type} (S : SignatureScheme SK Sig)
    (p : SuteraSignedMessagePayload) :
    Option (Except SuteraMessageDeError (SuteraSignedMessage Sig)) :=
  match identityFromString p.author with
  | none => none
  | some (.error e) => some (.error (.identityError e))
  | some (.ok a) =>
    match S.sigFromString p.signature with
    | none => some (.error .signatureError)
    | some sig => some (.ok ⟨a, p.message, sig⟩)

/-- A deterministic fake signing capability (design notes: "testable with a
deterministic fake signer"): keys are byte lists, the verifying key is the
signing key itself, and a signature records the key and the signed bytes. -/
def toyScheme : SignatureScheme (List Nat) (List Nat × List Nat) where
  verifying_key := fun sk => sk
  sign := fun sk m => (sk, m)
  check := fun vk m sig => sig = (vk, m)
  sigToString := fun sig => sig.1.length :: (sig.1 ++ sig.2)
  sigFromString := fun l =>
    match l with
    | [] => none
    | n :: rest => if n ≤ rest.length then some (rest.take n, rest.drop n) else none

/-- The kind token of segment 1: the part before the first at sign, or the
whole segment when there is none. -/
def kindTokenOf (k : List Nat) : List Nat :=
  match splitAtFirstAt k with
  | some (a, _) => a
  | none => k

/-- Sample identity of the repository's own test: kind user, display name
see2et, all-zero public key. -/
def sampleIdentity : SuteraIdentity :=
  ⟨.User, some (asciiBytes "see2et"), List.replicate 32 0⟩

/-- The valid UTF-8 identity string whose third segment is the 64 bytes of
"a", then "é" (bytes 195 and 169), then 61 more "a": the first 2-byte hex
chunk [97, 195] is not valid UTF-8. -/
def panicInput : List Nat :=
  asciiBytes "user.sutera-identity-v1.a" ++ [195, 169] ++ List.replicate 61 97

/-- A third segment of thirty-two "+f" chunks: 64 characters, none of the
plus signs is a hexadecimal digit. -/
def plusSegment : List Nat :=
  asciiBytes "+f+f+f+f+f+f+f+f+f+f+f+f+f+f+f+f+f+f+f+f+f+f+f+f+f+f+f+f+f+f+f+f"

/-- A third segment of thirty-two "-0" chunks: 64 characters, none of the
minus signs is a hexadecimal digit. -/
def minusSegment : List Nat :=
  asciiBytes "-0-0-0-0-0-0-0-0-0-0-0-0-0-0-0-0-0-0-0-0-0-0-0-0-0-0-0-0-0-0-0-0"

/-- A third segment of thirty-two "+0" chunks: 64 characters, none of the
plus signs is a hexadecimal digit. -/
def plusZeroSegment : List Nat :=
  asciiBytes "+0+0+0+0+0+0+0+0+0+0+0+0+0+0+0+0+0+0+0+0+0+0+0+0+0+0+0+0+0+0+0+0"

/-- Toy author whose public key is the toy verifying key of signer [1, 2]. -/
def toyAuthor : SuteraIdentity := ⟨.User, none, [1, 2]⟩

/-- The envelope the toy constructor builds for message "hi". -/
def toyEnv : SuteraSignedMessage (List Nat × List Nat) :=
  ⟨toyAuthor, asciiBytes "hi", ([1, 2], asciiBytes "hi")⟩

/-- Author whose stated key [9] is not the derived key of signer [1, 2]. -/
def mismatchAuthor : SuteraIdentity := ⟨.User, none, [9]⟩

/-- The author field of the toy wire payload. -/
def wireAuthor : List Nat :=
  asciiBytes
    "user.sutera-identity-v1.0000000000000000000000000000000000000000000000000000000000000000"

/-- The envelope the toy wire payload denotes. -/
def toyWireEnv : SuteraSignedMessage (List Nat × List Nat) :=
  ⟨⟨.User, none, List.replicate 32 0⟩, asciiBytes "hi", ([1, 2], asciiBytes "hi")⟩

/-- The toy wire payload itself. -/
def toyPayload : SuteraSignedMessagePayload :=
  ⟨wireAuthor, asciiBytes "hi", toyScheme.sigToString ([1, 2], asciiBytes "hi")⟩

example : identityFromString (asciiBytes "see2et.sutera-identity-v2.xxx") =
    some (.error (.VersionMismatch (asciiBytes "sutera-identity-v2"))) := by decide

example : identityFromString (asciiBytes "user.sutera-identity-v1") =
    some (.error .InvalidFormat) := by decide

theorem toyCorrect : SchemeCorrect toyScheme := by
  intro sk m
  simp [toyScheme, SchemeCorrect]

theorem toyBinding : SchemeBinding toyScheme := by
  intro sk m m2 hne
  simp [toyScheme, SchemeBinding]
  exact fun hm => hne hm.symm

theorem toySigRoundTrip : SchemeSigRoundTrip toyScheme := by
  intro sig
  simp [toyScheme, SchemeSigRoundTrip]

theorem splitOn46_three {a b c : List Nat} (ha : 46 ∉ a) (hb : 46 ∉ b) (hc : 46 ∉ c) :
    (a ++ 46 :: (b ++ 46 :: c)).splitOn 46 = [a, b, c] := by
  have na : ∀ x ∈ a, ¬((x == 46) = true) := by
    intro x hx hbeq
    exact ha (by simpa using (beq_iff_eq.mp hbeq ▸ hx))
  have nb : ∀ x ∈ b, ¬((x == 46) = true) := by
    intro x hx hbeq
    exact hb (by simpa using (beq_iff_eq.mp hbeq ▸ hx))
  have nc : ∀ x ∈ c, ¬((x == 46) = true) := by
    intro x hx hbeq
    exact hc (by simpa using (beq_iff_eq.mp hbeq ▸ hx))
  show (a ++ 46 :: (b ++ 46 :: c)).splitOnP (· == 46) = [a, b, c]
  rw [List.splitOnP_first _ _ na 46 (by simp), List.splitOnP_first _ _ nb 46 (by simp),
    List.splitOnP_eq_single _ _ nc]

theorem hexChar_lt (n : Nat) (h : n < 16) : hexChar n < 128 := by
  unfold hexChar
  split <;> omega

theorem hexChar_ne_46 (n : Nat) : hexChar n ≠ 46 := by
  unfold hexChar
  split <;> omega

theorem hexChar_not_sign (n : Nat) : hexChar n ≠ 43 ∧ hexChar n ≠ 45 := by
  unfold hexChar
  split <;> omega

theorem hexDigitVal_hexChar (n : Nat) (h : n < 16) : hexDigitVal (hexChar n) = some n := by
  rcases Nat.lt_or_ge n 10 with h10 | h10
  · have hc : hexChar n = 48 + n := by unfold hexChar; rw [if_pos h10]
    rw [hc]
    unfold hexDigitVal
    rw [if_pos (by omega)]
    congr 1
    omega
  · have hc : hexChar n = 87 + n := by unfold hexChar; rw [if_neg (by omega)]
    rw [hc]
    unfold hexDigitVal
    rw [if_neg (by omega), if_pos (by omega)]
    congr 1
    omega

theorem mem_hexEncode {bs : List Nat} {c : Nat} (hc : c ∈ hexEncode bs) :
    ∃ n, c = hexChar n := by
  induction bs with
  | nil => simp [hexEncode] at hc
  | cons b rest ih =>
    simp only [hexEncode, byteHex, List.cons_append, List.singleton_append, List.mem_cons] at hc
    rcases hc with h1 | h2 | h3
    · exact ⟨b / 16, h1⟩
    · exact ⟨b % 16, h2⟩
    · exact ih h3

theorem hexEncode_ne_46 {bs : List Nat} : 46 ∉ hexEncode bs := by
  intro hmem
  obtain ⟨n, hn⟩ := mem_hexEncode hmem
  exact hexChar_ne_46 n hn.symm

theorem hexEncode_length (bs : List Nat) : (hexEncode bs).length = 2 * bs.length := by
  induction bs with
  | nil => rfl
  | cons b rest ih => simp [hexEncode, byteHex, ih]; omega

theorem radixAccPos_pair {c1 c2 d1 d2 : Nat} (h1 : hexDigitVal c1 = some d1)
    (h2 : hexDigitVal c2 = some d2) (hd1 : d1 < 16) (hd2 : d2 < 16) :
    radixAccPos [c1, c2] 0 = some (d1 * 16 + d2) := by
  simp only [radixAccPos, h1, h2]
  rw [if_neg (by omega), if_neg (by omega)]
  congr 1
  omega

theorem decodeChunk_byteHex {b : Nat} (hb : b < 256) : decodeChunk (byteHex b) = some (some b) := by
  have hd : b / 16 < 16 := by omega
  have hm : b % 16 < 16 := Nat.mod_lt _ (by omega)
  show decodeChunk [hexChar (b / 16), hexChar (b % 16)] = some (some b)
  simp only [decodeChunk]
  rw [if_pos ⟨hexChar_lt _ hd, hexChar_lt _ hm⟩]
  simp only [u8FromStrRadix16]
  rw [if_neg (hexChar_not_sign _).1]
  rw [radixAccPos_pair (hexDigitVal_hexChar _ hd) (hexDigitVal_hexChar _ hm) hd hm]
  congr 2
  omega

theorem decodeHex_hexEncode {bs : List Nat} (hb : ∀ b ∈ bs, b < 256) :
    decodeHex (chunks2 (hexEncode bs)) = some (some bs) := by
  induction bs with
  | nil => rfl
  | cons b rest ih =>
    have hb0 : b < 256 := hb b (List.mem_cons_self b rest)
    have hrest : ∀ x ∈ rest, x < 256 := fun x hx => hb x (List.mem_cons_of_mem b hx)
    show decodeHex (chunks2 (byteHex b ++ hexEncode rest)) = some (some (b :: rest))
    have hch : chunks2 (byteHex b ++ hexEncode rest) = byteHex b :: chunks2 (hexEncode rest) := rfl
    rw [hch]
    unfold decodeHex
    rw [decodeChunk_byteHex hb0, ih hrest]

theorem splitAtFirstAt_no_at {a : List Nat} (ha : 64 ∉ a) : splitAtFirstAt a = none := by
  induction a with
  | nil => rfl
  | cons c rest ih =>
    have hc : ¬c = 64 := fun hc => ha (hc ▸ List.mem_cons_self c rest)
    simp only [splitAtFirstAt, if_neg hc]
    rw [ih (fun hm => ha (List.mem_cons_of_mem c hm))]

theorem splitAtFirstAt_append {a d : List Nat} (ha : 64 ∉ a) :
    splitAtFirstAt (a ++ 64 :: d) = some (a, d) := by
  induction a with
  | nil => simp [splitAtFirstAt]
  | cons c rest ih =>
    have hc : ¬c = 64 := fun hc => ha (hc ▸ List.mem_cons_self c rest)
    rw [List.cons_append]
    simp only [splitAtFirstAt, if_neg hc]
    rw [ih (fun hm => ha (List.mem_cons_of_mem c hm))]

theorem kindAndName_user_none : kindAndName (asciiBytes "user") = .ok (.User, none) := by decide

theorem kindAndName_user_some (dn : List Nat) :
    kindAndName (asciiBytes "user" ++ 64 :: dn) = .ok (.User, some dn) := by
  unfold kindAndName
  rw [splitAtFirstAt_append (by decide)]
  rfl

theorem asRef_user : SuteraIdentityKind.User.asRef = asciiBytes "user" := rfl

theorem identity_roundtrip_aux (x : SuteraIdentity) (hx : ValidIdentity x) :
    identityFromString (identityToString x) = some (.ok x) := by
  obtain ⟨kd, dn, key⟩ := x
  obtain ⟨hlen, hbytes, hdn⟩ := hx
  have hlen2 : key.length = 32 := hlen
  have hbytes2 : ∀ b ∈ key, b < 256 := hbytes
  have hkd : kd = .User := by cases kd; rfl
  subst hkd
  cases dn with
  | none =>
    have hsplit : (identityToString ⟨.User, none, key⟩).splitOn 46 =
        [asciiBytes "user", versionToken, hexEncode key] := by
      show ((asciiBytes "user") ++ 46 :: (versionToken ++ 46 :: hexEncode key)).splitOn 46 = _
      exact splitOn46_three (by decide) (by decide) hexEncode_ne_46
    unfold identityFromString
    rw [hsplit]
    simp only
    rw [if_neg (by decide), if_neg (by simp), if_neg (by rw [hexEncode_length, hlen2]; decide)]
    rw [kindAndName_user_none]
    simp only
    rw [decodeHex_hexEncode hbytes2]
  | some d =>
    have hdn2 : d ≠ [] ∧ ∀ c ∈ d, isAlnum c := hdn
    have hd46 : 46 ∉ asciiBytes "user" ++ 64 :: d := by
      intro hmem
      simp only [List.mem_append, List.mem_cons] at hmem
      rcases hmem with h1 | h2 | h3
      · revert h1
        decide
      · omega
      · rcases hdn2.2 46 h3 with h | h | h <;> omega
    have hform : identityToString ⟨.User, some d, key⟩ =
        (asciiBytes "user" ++ 64 :: d) ++ 46 :: (versionToken ++ 46 :: hexEncode key) := by
      simp [identityToString, SuteraIdentityKind.asRef]
    have hsplit : (identityToString ⟨.User, some d, key⟩).splitOn 46 =
        [asciiBytes "user" ++ 64 :: d, versionToken, hexEncode key] := by
      rw [hform]
      exact splitOn46_three hd46 (by decide) hexEncode_ne_46
    unfold identityFromString
    rw [hsplit]
    simp only
    rw [if_neg (by simp [asciiBytes]), if_neg (by simp),
      if_neg (by rw [hexEncode_length, hlen2]; decide)]
    rw [kindAndName_user_some]
    simp only
    rw [decodeHex_hexEncode hbytes2]

theorem hexDigit_char_bounds {c d : Nat} (h : hexDigitVal c = some d) :
    c < 128 ∧ c ≠ 43 ∧ c ≠ 45 ∧ d < 16 := by
  unfold hexDigitVal at h
  split_ifs at h with h1 h2 h3
  · have hd := Option.some.inj h
    exact ⟨by omega, by omega, by omega, by omega⟩
  · have hd := Option.some.inj h
    exact ⟨by omega, by omega, by omega, by omega⟩
  · have hd := Option.some.inj h
    exact ⟨by omega, by omega, by omega, by omega⟩

theorem decodeChunk_hex_pair {c1 c2 d1 d2 : Nat} (h1 : hexDigitVal c1 = some d1)
    (h2 : hexDigitVal c2 = some d2) :
    decodeChunk [c1, c2] = some (some (d1 * 16 + d2)) := by
  have b1 := hexDigit_char_bounds h1
  have b2 := hexDigit_char_bounds h2
  simp only [decodeChunk]
  rw [if_pos ⟨b1.1, b2.1⟩]
  simp only [u8FromStrRadix16]
  rw [if_neg b1.2.1]
  rw [radixAccPos_pair h1 h2 b1.2.2.2 b2.2.2.2]

theorem decodeHex_all_hex :
    ∀ p : List Nat, (∀ c ∈ p, (hexDigitVal c).isSome) →
      ∃ bs, decodeHex (chunks2 p) = some (some bs)
  | [], _ => ⟨[], rfl⟩
  | [a], hp => by
    obtain ⟨d, hd⟩ := Option.isSome_iff_exists.mp (hp a (by simp))
    have hb := hexDigit_char_bounds hd
    have hu : u8FromStrRadix16 [a] = some d := by
      simp only [u8FromStrRadix16]
      rw [if_neg hb.2.1]
      simp only [radixAccPos, hd, Nat.zero_mul, Nat.zero_add]
      rw [if_neg (by omega)]
    refine ⟨[d], ?_⟩
    simp only [chunks2, decodeHex, decodeChunk]
    rw [if_pos hb.1, hu]
  | a :: b :: rest, hp => by
    obtain ⟨d1, hd1⟩ := Option.isSome_iff_exists.mp (hp a (by simp))
    obtain ⟨d2, hd2⟩ := Option.isSome_iff_exists.mp (hp b (by simp))
    obtain ⟨bs, hbs⟩ := decodeHex_all_hex rest (fun c hc => hp c (by simp [hc]))
    exact ⟨(d1 * 16 + d2) :: bs, by
      simp only [chunks2, decodeHex, decodeChunk_hex_pair hd1 hd2, hbs]⟩

theorem kindAndName_token_none {k : List Nat} (h : kindFromStr (kindTokenOf k) = none) :
    kindAndName k = .error (.UnsupportedKind (kindTokenOf k)) := by
  unfold kindAndName kindTokenOf at *
  cases hs : splitAtFirstAt k with
  | some pr =>
    obtain ⟨a, b⟩ := pr
    rw [hs] at h
    simp only [hs, h]
  | none =>
    rw [hs] at h
    simp only [hs, h]

theorem parse_after_gates {s k p : List Nat} {kd : SuteraIdentityKind}
    {dn : Option (List Nat)}
    (hsplit : s.splitOn 46 = [k, versionToken, p]) (hk : k ≠ [])
    (hp : p.length = 64) (hkn : kindAndName k = .ok (kd, dn)) :
    identityFromString s =
      match decodeHex (chunks2 p) with
      | none => none
      | some none => some (.error .InvalidFormat)
      | some (some bytes) => some (.ok ⟨kd, dn, bytes⟩) := by
  unfold identityFromString
  rw [hsplit]
  simp only
  rw [if_neg hk, if_neg (by simp), if_neg (by rw [hp]; decide), hkn]

/-- C1: for every valid identity (recognized kind, 32-byte public key,
display name absent or non-empty alphanumeric-only), parsing the serialized
string yields exactly the original identity. -/
theorem identity_roundtrip (x : SuteraIdentity) (hx : ValidIdentity x) :
    identityFromString (identityToString x) = some (.ok x) :=
  identity_roundtrip_aux x hx

/-- Witness for C1 at the repository's test identity. -/
theorem identity_roundtrip_witness :
    ValidIdentity sampleIdentity ∧
      identityFromString (identityToString sampleIdentity) = some (.ok sampleIdentity) :=
  ⟨by decide, identity_roundtrip sampleIdentity (by decide)⟩

/-- C6: the parser does NOT return an error value on every input: on
`panicInput` the `std::str::from_utf8(chunk).unwrap()` call panics (modelled
as `none`), aborting instead of reporting `InvalidFormat`. -/
theorem parse_panics_on_misaligned_utf8 : identityFromString panicInput = none := by decide

/-- C7 counterexample: an input passing all structural gates whose third
segment contains the non-hex character "+" (43), yet parse SUCCEEDS (each
"+f" chunk is accepted by `u8::from_str_radix`) instead of failing with
`InvalidFormat`. -/
theorem hex_only_claim_counterexample :
    identityFromString (asciiBytes "user.sutera-identity-v1." ++ plusSegment) =
        some (.ok ⟨.User, none, List.replicate 32 15⟩) ∧
      plusSegment.length = 64 ∧ 43 ∈ plusSegment ∧ hexDigitVal 43 = none := by decide

/-- C7 (amended): for inputs passing the structural gates, if every character
of segment 3 is a hexadecimal digit then parse succeeds; the converse fails,
since the unsigned `u8::from_str_radix` also accepts chunks prefixed by an
optional plus sign, such as "+f". -/
theorem hex_digits_parse_ok (s k p : List Nat) (kd : SuteraIdentityKind)
    (dn : Option (List Nat))
    (hsplit : s.splitOn 46 = [k, versionToken, p]) (hk : k ≠ [])
    (hp : p.length = 64) (hkn : kindAndName k = .ok (kd, dn))
    (hhex : ∀ c ∈ p, (hexDigitVal c).isSome) :
    ∃ bytes, identityFromString s = some (.ok ⟨kd, dn, bytes⟩) := by
  obtain ⟨bs, hbs⟩ := decodeHex_all_hex p hhex
  exact ⟨bs, by rw [parse_after_gates hsplit hk hp hkn, hbs]⟩

/-- Witness for the amended C7: mixed-case hex third segment parses. -/
theorem hex_digits_parse_ok_witness :
    ∃ bytes,
      identityFromString (asciiBytes
          "user.sutera-identity-v1.00000000000000000000000000000000000000000000000000000000000000AB") =
        some (.ok ⟨.User, none, bytes⟩) :=
  hex_digits_parse_ok _ (asciiBytes "user")
    (asciiBytes "00000000000000000000000000000000000000000000000000000000000000AB")
    .User none (by decide) (by decide) (by decide) (by decide) (by decide)

/-- C10: the parser enforces nothing about the display name: any at-sign
suffix of segment 1 that is free of dots is returned as the display name,
empty or non-alphanumeric included. -/
theorem parse_display_name_unchecked (d p : List Nat) (hd : 46 ∉ d)
    (hp64 : p.length = 64) (hphex : ∀ c ∈ p, (hexDigitVal c).isSome) :
    ∃ bytes,
      identityFromString
          (asciiBytes "user" ++ 64 :: (d ++ 46 :: (versionToken ++ 46 :: p))) =
        some (.ok ⟨.User, some d, bytes⟩) := by
  have hd46 : 46 ∉ asciiBytes "user" ++ 64 :: d := by
    intro hmem
    simp only [List.mem_append, List.mem_cons] at hmem
    rcases hmem with h1 | h2 | h3
    · revert h1
      decide
    · omega
    · exact hd h3
  have hp46 : 46 ∉ p := by
    intro hmem
    have := hphex 46 hmem
    revert this
    decide
  have hsplit :
      (asciiBytes "user" ++ 64 :: (d ++ 46 :: (versionToken ++ 46 :: p))).splitOn 46 =
        [asciiBytes "user" ++ 64 :: d, versionToken, p] := by
    have hform : asciiBytes "user" ++ 64 :: (d ++ 46 :: (versionToken ++ 46 :: p)) =
        (asciiBytes "user" ++ 64 :: d) ++ 46 :: (versionToken ++ 46 :: p) := by
      simp
    rw [hform]
    exact splitOn46_three hd46 (by decide) hp46
  obtain ⟨bs, hbs⟩ := decodeHex_all_hex p hphex
  refine ⟨bs, ?_⟩
  rw [parse_after_gates hsplit (by simp [asciiBytes]) hp64 (kindAndName_user_some d), hbs]

/-- Witness for C10: the non-alphanumeric display name "!" is accepted. -/
theorem parse_display_name_unchecked_witness :
    ∃ bytes,
      identityFromString
          (asciiBytes "user" ++ 64 :: ([33] ++ 46 :: (versionToken ++ 46 ::
            asciiBytes "0000000000000000000000000000000000000000000000000000000000000000"))) =
        some (.ok ⟨.User, some [33], bytes⟩) :=
  parse_display_name_unchecked [33]
    (asciiBytes "0000000000000000000000000000000000000000000000000000000000000000")
    (by decide) (by decide) (by decide)

example :
    identityFromString (asciiBytes "user.sutera-identity-v1." ++ minusSegment) =
      some (.error .InvalidFormat) := by decide

/-- C2 counterexample: checks (1)-(5) pass on this input and its third
segment cannot "decode as hex" (the plus sign 43 is no hex digit), so the
claim's check (6) demands `InvalidFormat`; the parser instead SUCCEEDS,
because for the unsigned `u8` `from_str_radix` accepts an optional leading
plus sign, so every "+0" chunk parses to the byte 0. -/
theorem parse_check_order_counterexample :
    identityFromString (asciiBytes "user.sutera-identity-v1." ++ plusZeroSegment) =
        some (.ok ⟨.User, none, List.replicate 32 0⟩) ∧
      plusZeroSegment.length = 64 ∧ 43 ∈ plusZeroSegment ∧ hexDigitVal 43 = none := by decide

/-- C2 (amended): the parser's checks run in the claimed order, checks (1)
to (5) failing with the claimed errors; check (6) is the code's chunk
decode of segment 3 (Rust's unsigned `u8::from_str_radix` per aligned
2-byte chunk, which also accepts an optional leading plus sign, and which
panics on a chunk that is not valid UTF-8), whose failure yields
`InvalidFormat`. -/
theorem parse_check_order (s : List Nat) :
    ((s.splitOn 46).length ≠ 3 →
      identityFromString s = some (.error .InvalidFormat)) ∧
    (∀ k v p, s.splitOn 46 = [k, v, p] →
      (k = [] → identityFromString s = some (.error .InvalidFormat)) ∧
      (k ≠ [] → v ≠ versionToken →
        identityFromString s = some (.error (.VersionMismatch v))) ∧
      (k ≠ [] → v = versionToken → p.length ≠ 64 →
        identityFromString s = some (.error .InvalidFormat)) ∧
      (k ≠ [] → v = versionToken → p.length = 64 →
        kindFromStr (kindTokenOf k) = none →
        identityFromString s = some (.error (.UnsupportedKind (kindTokenOf k)))) ∧
      (∀ kd dn, k ≠ [] → v = versionToken → p.length = 64 →
        kindAndName k = .ok (kd, dn) →
        identityFromString s =
          match decodeHex (chunks2 p) with
          | none => none
          | some none => some (.error .InvalidFormat)
          | some (some bytes) => some (.ok ⟨kd, dn, bytes⟩))) := by
  constructor
  · intro h3
    unfold identityFromString
    rcases hl : s.splitOn 46 with _ | ⟨a, _ | ⟨b, _ | ⟨c, _ | ⟨e, rest⟩⟩⟩⟩ <;>
        rw [hl] at h3
    all_goals simp at h3 ⊢
  · intro k v p hl
    refine ⟨?_, ?_, ?_, ?_, ?_⟩
    · intro hk
      unfold identityFromString
      rw [hl]
      simp only
      rw [if_pos hk]
    · intro hk hv
      unfold identityFromString
      rw [hl]
      simp only
      rw [if_neg hk, if_pos hv]
    · intro hk hv hp
      subst hv
      unfold identityFromString
      rw [hl]
      simp only
      rw [if_neg hk, if_neg (by simp), if_pos hp]
    · intro hk hv hp ht
      subst hv
      unfold identityFromString
      rw [hl]
      simp only
      rw [if_neg hk, if_neg (by simp), if_neg (by rw [hp]; decide)]
      rw [kindAndName_token_none ht]
    · intro kd dn hk hv hp hkn
      subst hv
      exact parse_after_gates hl hk hp hkn

/-- Witness for C2: the spec's own version-mismatch example takes the
third branch of the check cascade. -/
theorem parse_check_order_witness :
    identityFromString (asciiBytes "see2et.sutera-identity-v2.xxx") =
      some (.error (.VersionMismatch (asciiBytes "sutera-identity-v2"))) :=
  ((parse_check_order (asciiBytes "see2et.sutera-identity-v2.xxx")).2
    (asciiBytes "see2et") (asciiBytes "sutera-identity-v2") (asciiBytes "xxx")
    (by decide)).2.1 (by decide) (by decide)

/-- C3: when the signing capability's derived verifying key equals the
author's public key, any envelope returned by the signing constructor
verifies, given the primitive's soundness law. -/
theorem new_message_verifies {SK Sig : Type} (S : SignatureScheme SK Sig)
    (hS : SchemeCorrect S) (author : SuteraIdentity) (message : List Nat)
    (signer : SK) (hkey : S.verifying_key signer = author.pub_signature)
    (env : SuteraSignedMessage Sig)
    (hnew : SuteraSignedMessage.new S author message signer = .ok env) :
    env.runVerify S = true := by
  unfold SuteraSignedMessage.new at hnew
  rw [if_neg (by simp [hkey])] at hnew
  have henv := Except.ok.inj hnew
  subst henv
  unfold SuteraSignedMessage.runVerify
  simp only
  rw [← hkey]
  exact hS signer message

/-- Witness for C3 with the deterministic fake signer. -/
theorem new_message_verifies_witness : toyEnv.runVerify toyScheme = true :=
  new_message_verifies toyScheme toyCorrect toyAuthor (asciiBytes "hi") [1, 2]
    (by decide) toyEnv (by decide)

/-- C4: replacing the message of a constructor-built envelope by any
different string makes verification fail, given the primitive's binding
law. -/
theorem mutated_message_fails_verify {SK Sig : Type} (S : SignatureScheme SK Sig)
    (hS : SchemeBinding S) (author : SuteraIdentity) (message : List Nat)
    (signer : SK) (env : SuteraSignedMessage Sig)
    (hnew : SuteraSignedMessage.new S author message signer = .ok env)
    (m2 : List Nat) (hne : m2 ≠ env.message) :
    SuteraSignedMessage.runVerify S ⟨env.author, m2, env.signature⟩ = false := by
  unfold SuteraSignedMessage.new at hnew
  by_cases h : S.verifying_key signer ≠ author.pub_signature
  · rw [if_pos h] at hnew
    exact absurd hnew (by simp)
  · rw [if_neg h] at hnew
    have hkey : S.verifying_key signer = author.pub_signature := not_not.mp h
    have henv := Except.ok.inj hnew
    subst henv
    unfold SuteraSignedMessage.runVerify
    simp only
    rw [← hkey]
    exact hS signer message m2 (by simpa using hne)

/-- Witness for C4: the repository test's mutation "hi" to "ho" fails. -/
theorem mutated_message_fails_verify_witness :
    SuteraSignedMessage.runVerify toyScheme
      ⟨toyEnv.author, asciiBytes "ho", toyEnv.signature⟩ = false :=
  mutated_message_fails_verify toyScheme toyBinding toyAuthor (asciiBytes "hi")
    [1, 2] toyEnv (by decide) (asciiBytes "ho") (by decide)

/-- C5: the constructor fails with `SigningKeyMismatch` exactly when the
derived verifying key differs from the author's public key; otherwise it
returns the envelope of the inputs with the capability's signature over the
message bytes. -/
theorem new_key_mismatch_spec {SK Sig : Type} (S : SignatureScheme SK Sig)
    (author : SuteraIdentity) (message : List Nat) (signer : SK) :
    (SuteraSignedMessage.new S author message signer = .error .SigningKeyMismatch ↔
      S.verifying_key signer ≠ author.pub_signature) ∧
    (S.verifying_key signer = author.pub_signature →
      SuteraSignedMessage.new S author message signer =
        .ok ⟨author, message, S.sign signer message⟩) := by
  unfold SuteraSignedMessage.new
  by_cases h : S.verifying_key signer ≠ author.pub_signature
  · rw [if_pos h]
    exact ⟨iff_of_true rfl h, fun heq => absurd heq h⟩
  · rw [if_neg h]
    exact ⟨iff_of_false (by simp) h, fun _ => rfl⟩

/-- Witness for C5: a mismatched capability yields `SigningKeyMismatch`. -/
theorem new_key_mismatch_spec_witness :
    SuteraSignedMessage.new toyScheme mismatchAuthor (asciiBytes "hi") [1, 2] =
      .error .SigningKeyMismatch :=
  (new_key_mismatch_spec toyScheme mismatchAuthor (asciiBytes "hi") [1, 2]).1.mpr
    (by decide)

/-- C8: deserialization succeeds exactly when the identity codec accepts the
author field and the signature decoder accepts the signature field, with the
message taken unmodified; it fails exactly when one of the two parsers fails;
and its result depends only on the signature decoder, never on verification
(or any other capability operation). -/
theorem deserialize_spec {SK Sig : Type} (S : SignatureScheme SK Sig)
    (p : SuteraSignedMessagePayload) :
    (∀ env : SuteraSignedMessage Sig,
      deserializeMsg S p = some (.ok env) ↔
        identityFromString p.author = some (.ok env.author) ∧
        S.sigFromString p.signature = some env.signature ∧
        env.message = p.message) ∧
    ((∃ e, deserializeMsg S p = some (.error e)) ↔
      (∃ e0, identityFromString p.author = some (.error e0)) ∨
        ((∃ a, identityFromString p.author = some (.ok a)) ∧
          S.sigFromString p.signature = none)) ∧
    (∀ {SK2 : Type} (S2 : SignatureScheme SK2 Sig),
      S2.sigFromString = S.sigFromString →
      deserializeMsg S2 p = deserializeMsg S p) := by
  refine ⟨?_, ?_, ?_⟩
  · intro env
    obtain ⟨ea, em, es⟩ := env
    unfold deserializeMsg
    rcases hA : identityFromString p.author with _ | e | a
    · simp
    · simp
    · rcases hSig : S.sigFromString p.signature with _ | sig
      · simp
      · constructor
        · intro h
          have h2 : (⟨a, p.message, sig⟩ : SuteraSignedMessage Sig) = ⟨ea, em, es⟩ :=
            Except.ok.inj (Option.some.inj h)
          injection h2 with hx1 hx2 hx3
          subst hx1
          subst hx3
          exact ⟨rfl, rfl, hx2.symm⟩
        · rintro ⟨h1, h2, h3⟩
          have ha : a = ea := Except.ok.inj (Option.some.inj h1)
          have hs : sig = es := Option.some.inj h2
          subst h3
          subst ha
          subst hs
          rfl
  · unfold deserializeMsg
    rcases hA : identityFromString p.author with _ | e | a
    · simp
    · simp
    · rcases hSig : S.sigFromString p.signature with _ | sig
      · simp
      · simp
  · intro SK2 S2 hfun
    unfold deserializeMsg
    rw [hfun]

/-- Witness for C8: the toy payload deserializes to the denoted envelope. -/
theorem deserialize_spec_witness :
    deserializeMsg toyScheme toyPayload = some (.ok toyWireEnv) :=
  ((deserialize_spec toyScheme toyPayload).1 toyWireEnv).mpr
    ⟨by decide, by decide, rfl⟩

/-- C9: serializing then deserializing an envelope whose author is a valid
identity reproduces the envelope, given the primitive's textual signature
encoding round-trips. -/
theorem signed_message_roundtrip {SK Sig : Type} (S : SignatureScheme SK Sig)
    (hrt : SchemeSigRoundTrip S) (m : SuteraSignedMessage Sig)
    (hv : ValidIdentity m.author) :
    deserializeMsg S (serializeMsg S m) = some (.ok m) := by
  obtain ⟨a, msg, sig⟩ := m
  unfold serializeMsg deserializeMsg
  simp only
  rw [identity_roundtrip_aux a hv]
  simp only
  rw [hrt sig]

/-- Witness for C9 with the deterministic fake signer. -/
theorem signed_message_roundtrip_witness :
    deserializeMsg toyScheme (serializeMsg toyScheme toyWireEnv) =
      some (.ok toyWireEnv) :=
  signed_message_roundtrip toyScheme toySigRoundTrip toyWireEnv (by decide)

end Sutera
